import Mathlib

/-!
Shallow embedding of the supervision engine of the `runner` process
supervisor (source: `src/runner.rs`, `src/run_command.rs`,
`src/monitor_stdout.rs`, `src/command_config.rs`, `src/tui.rs`).

Modelling conventions:
- machine integers (`u64`, `usize`) become `Nat`; `i64` and `chrono`
  timestamps / durations become `Int` (a duration is its length in seconds);
- child-process attempt results are supplied by an oracle list
  (`List Attempt`): `run_command` returning `Ok(())` is `ok := true`,
  any `Err` (non-zero exit, spawn failure, ...) is `ok := false`, and the
  `Utc::now()` value pushed into the crash ledger on failure is `time`;
- remedy executions (the `run_once` calls inside the backup-strategy block)
  consume a second oracle `remOk : Nat → Bool`, indexed by how many remedy
  runs have happened so far in this supervision task;
- `Utc::now()` is re-read by the source once per loop iteration while
  scanning the ledger; time does not advance inside one escalation check in
  the model, so the check receives a single `now` (the crash timestamp just
  pushed);
- a Rust panic (index out of bounds, `%` by zero, `usize` underflow) is
  modelled as `Option.none`;
- the event channel is unbounded, so `try_send` never fails and is modelled
  as a pure event value.
-/

namespace Runner

/-- Severity of dashboard messages, from `tui.rs` (`Severity`). -/
inductive Severity where
  | info
  | error
  | system
deriving DecidableEq

/-- Keyboard keys relevant to the dashboard; every other `termion` key
falls into `other` (the display loop ignores them). -/
inductive Key where
  | Right
  | Left
  | other
deriving DecidableEq

/-- Events on the single unbounded channel, from `tui.rs` (`TuiEvent`). -/
inductive TuiEvent where
  | TabListChanged (titles : List String)
  | CommandStarted (id : Nat)
  | NewStdoutMessage (id : Nat) (text : String)
  | NewStderrMessage (id : Nat) (text : String)
  | CommandEnded (id : Nat)
  | Input (key : Key)
  | System (id : Nat) (text : String)
deriving DecidableEq

/-- Restart modes, from `command_config.rs` (`CommandMode`). -/
inductive CommandMode where
  | RunOnce
  | RunOnceAndWait
  | RunUntilSuccess
  | RunUntilSuccessAndWait
  | KeepAlive
deriving DecidableEq

/-- Backup strategy, from `command_config.rs` (`BackupStrategy`).
`period` is a `chrono::Duration` measured in seconds. -/
structure BackupStrategy where
  times : Nat
  period : Int
  script : Option String
  safe_mode : Option (List String)
deriving DecidableEq

/-- Command descriptor, from `command_config.rs` (`CommandConfig`). -/
structure CommandConfig where
  command : String
  args : List String
  stdout_history : Nat
  mode : CommandMode
  name : String
  backup_strategy : Option BackupStrategy
deriving DecidableEq

/-- The message sent on give-up, from `runner.rs` lines 124 and 176. -/
def giveUpMsg : String := "Crash limit reached with no handling strategy, giving up!"

/-- The one-shot descriptor built for a backup script, from `runner.rs`
lines 128-135 (identical at lines 180-187). -/
def scriptConfig (strategy : BackupStrategy) (command : CommandConfig) :
    Option CommandConfig :=
  strategy.script.map fun script =>
    { command := script
      args := []
      stdout_history := command.stdout_history
      mode := CommandMode.RunOnceAndWait
      name := script
      backup_strategy := none }

/-- The one-shot descriptor built for a safe-mode relaunch, from `runner.rs`
lines 139-146 (identical at lines 191-198). -/
def safeModeConfig (strategy : BackupStrategy) (command : CommandConfig) :
    Option CommandConfig :=
  strategy.safe_mode.map fun args =>
    { command := command.command
      args := args
      stdout_history := command.stdout_history
      mode := CommandMode.RunOnceAndWait
      name := command.name
      backup_strategy := none }

/-- The remedy descriptors run by one firing of the backup-strategy block,
script first, then safe mode, mirroring the two `if let Some(...)` blocks
of `runner.rs` lines 127-148. -/
def remedyList (strategy : BackupStrategy) (command : CommandConfig) :
    List CommandConfig :=
  (scriptConfig strategy command).toList ++ (safeModeConfig strategy command).toList

/-- Runs the remedy descriptors in order, each via `run_once(..).await?`:
a failing remedy makes `?` propagate the error, so the remaining remedies
do not run. Returns (all succeeded, next remedy-oracle index, remedies
actually invoked). -/
def runRemedies (remOk : Nat → Bool) : Nat → List CommandConfig →
    Bool × Nat × List CommandConfig
  | ri, [] => (true, ri, [])
  | ri, c :: cs =>
    if remOk ri then
      let r := runRemedies remOk (ri + 1) cs
      (r.1, r.2.1, c :: r.2.2)
    else
      (false, ri + 1, [c])

/-- Outcome of one escalation check (`runner.rs` lines 115-151, identical
at lines 167-203): either the normal restart loop resumes, or the task
returns `Ok(())` after the give-up message, or a remedy returned `Err`
and `?` propagated it out of the supervision task. -/
inductive EscOutcome where
  | resume (remedies : List CommandConfig) (ri : Nat)
  | gaveUp (remedies : List CommandConfig) (ev : TuiEvent) (ri : Nat)
  | failedRemedy (remedies : List CommandConfig) (ri : Nat)
deriving DecidableEq

/-- The escalation check of `runner.rs` lines 116-150: walk the crash
ledger; count entries inside the sliding window; after every entry, if the
running count exceeds `times`, give up (no remedy configured) or run the
remedies. `now` is the `Utc::now()` of this check, `crash_count` the
running count, `ri` the remedy-oracle index, `acc` the remedies already
run during this check. -/
def escalationCheck (strategy : BackupStrategy) (command : CommandConfig)
    (id : Nat) (now : Int) (remOk : Nat → Bool) :
    List Int → Nat → Nat → List CommandConfig → EscOutcome
  | [], _, ri, acc => EscOutcome.resume acc ri
  | t :: rest, crash_count, ri, acc =>
    let crash_count := if now - strategy.period < t then crash_count + 1 else crash_count
    if crash_count > strategy.times then
      if strategy.script.isNone && strategy.safe_mode.isNone then
        EscOutcome.gaveUp acc (TuiEvent.NewStderrMessage id giveUpMsg) ri
      else
        let r := runRemedies remOk ri (remedyList strategy command)
        if r.1 then
          escalationCheck strategy command id now remOk rest crash_count r.2.1 (acc ++ r.2.2)
        else
          EscOutcome.failedRemedy (acc ++ r.2.2) r.2.1
    else
      escalationCheck strategy command id now remOk rest crash_count ri acc

/-- The in-window crash count accumulated by the ledger scan of
`runner.rs` lines 116-120: one increment per ledger entry strictly newer
than `now - period`. -/
def crashCount (now period : Int) (crashes : List Int) : Nat :=
  crashes.foldl (fun c t => if now - period < t then c + 1 else c) 0

/-- Number of ledger positions at which the escalation check's running
in-window count exceeds `times` (each such position executes the remedy
block once). -/
def trigCount (strategy : BackupStrategy) (now : Int) :
    List Int → Nat → Nat
  | [], _ => 0
  | t :: rest, c =>
    let c := if now - strategy.period < t then c + 1 else c
    (if c > strategy.times then 1 else 0) + trigCount strategy now rest c

/-- One child-process attempt as seen by the supervision loop:
`ok` is whether `run_command` returned `Ok(())`, `time` the `Utc::now()`
pushed into the crash ledger when it did not. -/
structure Attempt where
  ok : Bool
  time : Int
deriving DecidableEq

/-- How a supervision loop run ended (over a finite attempt oracle):
`ok` = returned `Ok(())` because an attempt succeeded; `gaveUp` = returned
`Ok(())` after the give-up message; `err` = a remedy's error propagated
via `?`; `pending` = the oracle is exhausted and the source loop would
still be running. Each carries the number of `run_command` invocations of
the supervised command, the remedy descriptors run, and the number of
escalation checks performed. -/
inductive RunResult where
  | ok (attempts : Nat) (remedies : List CommandConfig) (esc : Nat)
  | gaveUp (attempts : Nat) (remedies : List CommandConfig) (esc : Nat) (ev : TuiEvent)
  | err (attempts : Nat) (remedies : List CommandConfig) (esc : Nat)
  | pending (attempts : Nat) (remedies : List CommandConfig) (esc : Nat) (crashes : List Int)
deriving DecidableEq

/-- Attempt count of a result. -/
def RunResult.attempts : RunResult → Nat
  | .ok n _ _ => n
  | .gaveUp n _ _ _ => n
  | .err n _ _ => n
  | .pending n _ _ _ => n

/-- Whether the loop has returned (as opposed to waiting for more
attempt outcomes). -/
def RunResult.isDone : RunResult → Bool
  | .pending _ _ _ _ => false
  | _ => true

/-- Whether the loop returned `Ok(())` because an attempt succeeded. -/
def RunResult.isSuccessTermination : RunResult → Bool
  | .ok _ _ _ => true
  | _ => false

/-- Escalation-check count of a result. -/
def RunResult.escChecks : RunResult → Nat
  | .ok _ _ e => e
  | .gaveUp _ _ e _ => e
  | .err _ _ e => e
  | .pending _ _ e _ => e

/-- The `run_until_success` loop of `runner.rs` lines 106-154:
`while let Err(_) = run_command(..)` — push the crash time, run the
escalation check when a backup strategy exists, and otherwise retry.
State: remaining attempt oracle, crash ledger, remedy-oracle index,
attempts so far, remedies so far, escalation checks so far. -/
def runUntilSuccessLoop (command : CommandConfig) (id : Nat) (remOk : Nat → Bool) :
    List Attempt → List Int → Nat → Nat → List CommandConfig → Nat → RunResult
  | [], crashes, _, n, rem, esc => RunResult.pending n rem esc crashes
  | a :: rest, crashes, ri, n, rem, esc =>
    if a.ok then
      RunResult.ok (n + 1) rem esc
    else
      let crashes := crashes ++ [a.time]
      match command.backup_strategy with
      | none => runUntilSuccessLoop command id remOk rest crashes ri (n + 1) rem esc
      | some strategy =>
        match escalationCheck strategy command id a.time remOk crashes 0 ri [] with
        | EscOutcome.resume run ri2 =>
          runUntilSuccessLoop command id remOk rest crashes ri2 (n + 1) (rem ++ run) (esc + 1)
        | EscOutcome.gaveUp run ev _ =>
          RunResult.gaveUp (n + 1) (rem ++ run) (esc + 1) ev
        | EscOutcome.failedRemedy run _ =>
          RunResult.err (n + 1) (rem ++ run) (esc + 1)

/-- `run_until_success` from its initial state (`runner.rs` line 112:
`let mut crashes = Vec::new();`). -/
def run_until_success (command : CommandConfig) (id : Nat) (remOk : Nat → Bool)
    (attempts : List Attempt) : RunResult :=
  runUntilSuccessLoop command id remOk attempts [] 0 0 [] 0

/-- The `run_keep_alive` loop of `runner.rs` lines 157-206: identical
escalation handling, but a successful attempt just loops again. -/
def runKeepAliveLoop (command : CommandConfig) (id : Nat) (remOk : Nat → Bool) :
    List Attempt → List Int → Nat → Nat → List CommandConfig → Nat → RunResult
  | [], crashes, _, n, rem, esc => RunResult.pending n rem esc crashes
  | a :: rest, crashes, ri, n, rem, esc =>
    if a.ok then
      runKeepAliveLoop command id remOk rest crashes ri (n + 1) rem esc
    else
      let crashes := crashes ++ [a.time]
      match command.backup_strategy with
      | none => runKeepAliveLoop command id remOk rest crashes ri (n + 1) rem esc
      | some strategy =>
        match escalationCheck strategy command id a.time remOk crashes 0 ri [] with
        | EscOutcome.resume run ri2 =>
          runKeepAliveLoop command id remOk rest crashes ri2 (n + 1) (rem ++ run) (esc + 1)
        | EscOutcome.gaveUp run ev _ =>
          RunResult.gaveUp (n + 1) (rem ++ run) (esc + 1) ev
        | EscOutcome.failedRemedy run _ =>
          RunResult.err (n + 1) (rem ++ run) (esc + 1)

/-- `run_keep_alive` from its initial state (`runner.rs` line 163). -/
def run_keep_alive (command : CommandConfig) (id : Nat) (remOk : Nat → Bool)
    (attempts : List Attempt) : RunResult :=
  runKeepAliveLoop command id remOk attempts [] 0 0 [] 0

/-- Length of the run of failing attempts before the first success. -/
def failLen (attempts : List Attempt) : Nat :=
  (attempts.takeWhile fun a => !a.ok).length

/-- `k` concatenated copies of a remedy list (the remedies run by `k`
firings of the remedy block). -/
def repRem (k : Nat) (l : List CommandConfig) : List CommandConfig :=
  (List.replicate k l).flatten

/-- A UTC timestamp at second precision (the model of a
`chrono::DateTime<Utc>`; `Utc::now()` sub-second precision is outside the
scope of the claims settled here). -/
structure DateTimeUtc where
  year : Nat
  month : Nat
  day : Nat
  hour : Nat
  minute : Nat
  second : Nat
deriving DecidableEq

/-- Zero-pad a number to two digits, as chrono's numeric format fields do. -/
def pad2 (n : Nat) : String :=
  if n < 10 then "0" ++ toString n else toString n

/-- Zero-pad a year to four digits. -/
def pad4 (n : Nat) : String :=
  if n < 10 then "000" ++ toString n
  else if n < 100 then "00" ++ toString n
  else if n < 1000 then "0" ++ toString n
  else toString n

/-- chrono's `%H:%M:%S` rendering of a timestamp (the stderr log format of
`monitor_stderr.rs` line 58, and the format the spec states for the stdout
dump). -/
def fmtHMS (t : DateTimeUtc) : String :=
  pad2 t.hour ++ ":" ++ pad2 t.minute ++ ":" ++ pad2 t.second

/-- chrono's `to_rfc3339()` rendering of a UTC timestamp at second
precision, used by `save_to_file` in `monitor_stdout.rs` line 62. -/
def to_rfc3339 (t : DateTimeUtc) : String :=
  pad4 t.year ++ "-" ++ pad2 t.month ++ "-" ++ pad2 t.day ++ "T" ++ fmtHMS t ++ "+00:00"

/-- The spec's stated line format for the stdout crash dump:
`%H:%M:%S | <text>`. -/
def hmsLine (t : DateTimeUtc) (text : String) : String :=
  fmtHMS t ++ " | " ++ text

/-- The line format actually written by `save_to_file`
(`monitor_stdout.rs` line 62): `{to_rfc3339} | {text}`. -/
def dumpLine (entry : DateTimeUtc × String) : String :=
  to_rfc3339 entry.1 ++ " | " ++ entry.2

/-- The `circular_queue::CircularQueue`, modelled by its
`iter()`-observable contents: `data` lists the entries newest first,
`data.length ≤ capacity` is the ring invariant. `push` on a full queue
overwrites the oldest entry; `push` on a zero-capacity queue does
nothing. -/
structure CircularQueue (α : Type) where
  capacity : Nat
  data : List α
deriving DecidableEq

/-- `CircularQueue::with_capacity`. -/
def CircularQueue.with_capacity (α : Type) (n : Nat) : CircularQueue α :=
  { capacity := n, data := [] }

/-- `CircularQueue::push`: keep the newest `capacity` entries. -/
def CircularQueue.push {α : Type} (q : CircularQueue α) (x : α) : CircularQueue α :=
  if q.capacity = 0 then q
  else { capacity := q.capacity, data := x :: q.data.take (q.capacity - 1) }

/-- `CircularQueue::iter`: most recently pushed entry first. -/
def CircularQueue.iter {α : Type} (q : CircularQueue α) : List α := q.data

/-- `CircularQueue::len`. -/
def CircularQueue.len {α : Type} (q : CircularQueue α) : Nat := q.data.length

/-- `CircularQueue::is_empty`. -/
def CircularQueue.is_empty {α : Type} (q : CircularQueue α) : Bool := q.data.isEmpty

/-- `LogT` from `monitor_stdout.rs` line 29. -/
def LogT : Type := CircularQueue (DateTimeUtc × String)

/-- `monitor_stdout` (`monitor_stdout.rs` lines 32-47): for each stdout
line, push `(now, line)` into the buffer and emit `NewStdoutMessage`.
The stream is given as the list of `(Utc::now(), line)` pairs read before
the pipe closed; a read error only cuts the stream short, which is the
same as ending the list there. Returns the final buffer and the emitted
events. -/
def monitor_stdout (buffer : LogT) (stdout : List (DateTimeUtc × String))
    (id : Nat) : LogT × List TuiEvent :=
  match stdout with
  | [] => (buffer, [])
  | (t, line) :: rest =>
    let r := monitor_stdout (CircularQueue.push buffer (t, line)) rest id
    (r.1, TuiEvent.NewStdoutMessage id line :: r.2)

/-- `save_to_file` (`monitor_stdout.rs` lines 50-65): no file at all when
the buffer is empty, otherwise one line per entry in `iter()` order,
each line `{to_rfc3339} | {text}`. `none` models "no stdout.txt written";
`some lines` models the file contents. -/
def save_to_file (buffer : LogT) : Option (List String) :=
  if CircularQueue.is_empty buffer then none
  else some ((CircularQueue.iter buffer).map dumpLine)

/-- `subprocess::ExitStatus` as far as `run_command` inspects it. -/
inductive ExitStatus where
  | exited (code : Nat)
  | signaled (sig : Nat)
  | other
deriving DecidableEq

/-- The crash-dump step of `run_command` (`run_command.rs` lines 73-76):
the stdout buffer is flushed exactly when the exit status differs from
`Exited(0)`. -/
def crashDumpStep (exit_status : ExitStatus) (buffer : LogT) : Option (List String) :=
  if exit_status = ExitStatus.exited 0 then none else save_to_file buffer

/-- One dashboard tab, from `tui.rs` (`TabState`). -/
structure TabState where
  title : String
  content : List (Severity × String)
deriving DecidableEq

/-- `TabState::build`. -/
def TabState.build (title : String) : TabState :=
  { title := title, content := [] }

/-- The `while self.content.len() > 100 { self.content.pop_front(); }`
loop of `TabState::add_message`: drop the front entry while more than 100
entries remain. -/
def trimContent : List (Severity × String) → List (Severity × String)
  | [] => []
  | x :: l => if (x :: l).length > 100 then trimContent l else x :: l

/-- `TabState::add_message` (`tui.rs` lines 138-143). -/
def TabState.add_message (tab : TabState) (severity : Severity) (text : String) :
    TabState :=
  { tab with content := trimContent (tab.content ++ [(severity, text)]) }

/-- The dashboard state, from `tui.rs` (`TuiState`). -/
structure TuiState where
  tabs : List TabState
  index : Nat
deriving DecidableEq

/-- `TuiState::build`; `tui.rs` line 154 builds it from `Vec::new()`. -/
def TuiState.build (titles : List String) : TuiState :=
  { tabs := titles.map TabState.build, index := 0 }

/-- `TuiState::next` (`tui.rs` lines 105-107): `(index + 1) % tabs.len()`.
With no tabs this is `%` by zero, which panics — modelled as `none`. -/
def TuiState.next (st : TuiState) : Option TuiState :=
  if st.tabs.length = 0 then none
  else some { st with index := (st.index + 1) % st.tabs.length }

/-- `TuiState::previous` (`tui.rs` lines 110-116): decrement, or wrap to
`tabs.len() - 1`. With `index = 0` and no tabs this computes `0usize - 1`,
which panics (overflow checks) or produces `usize::MAX` and panics at the
next tab indexing — modelled as `none`. -/
def TuiState.previous (st : TuiState) : Option TuiState :=
  if st.index > 0 then some { st with index := st.index - 1 }
  else if st.tabs.length = 0 then none
  else some { st with index := st.tabs.length - 1 }

/-- `app.tabs[idx].add_message(..)`: out-of-bounds indexing panics,
modelled as `none`. -/
def updateTab (st : TuiState) (idx : Nat) (severity : Severity) (text : String) :
    Option TuiState :=
  if h : idx < st.tabs.length then
    some { st with tabs := st.tabs.set idx (TabState.add_message (st.tabs.get ⟨idx, h⟩) severity text) }
  else none

/-- One iteration of the event fold in `start_display_loop`
(`tui.rs` lines 242-272). -/
def start_display_loop_step (st : TuiState) (ev : TuiEvent) : Option TuiState :=
  match ev with
  | TuiEvent.TabListChanged titles =>
    some { st with tabs := titles.map TabState.build }
  | TuiEvent.CommandStarted idx => updateTab st idx Severity.system "Command Started"
  | TuiEvent.NewStdoutMessage idx message => updateTab st idx Severity.info message
  | TuiEvent.NewStderrMessage idx message => updateTab st idx Severity.error message
  | TuiEvent.CommandEnded idx => updateTab st idx Severity.system "Command ended"
  | TuiEvent.Input key =>
    match key with
    | Key.Right => TuiState.next st
    | Key.Left => TuiState.previous st
    | Key.other => some st
  | TuiEvent.System idx message => updateTab st idx Severity.system message

/-- The severity with which `start_display_loop` folds each event into the
addressed tab (`none` for events that append no message). -/
def eventSeverity : TuiEvent → Option Severity
  | TuiEvent.TabListChanged _ => none
  | TuiEvent.CommandStarted _ => some Severity.system
  | TuiEvent.NewStdoutMessage _ _ => some Severity.info
  | TuiEvent.NewStderrMessage _ _ => some Severity.error
  | TuiEvent.CommandEnded _ => some Severity.system
  | TuiEvent.Input _ => none
  | TuiEvent.System _ _ => some Severity.system

/-- Configuration errors (`config_error.rs`); the source's
`BadCommandConfig` also carries the offending JSON rendered to a string,
abstracted away here. -/
inductive ConfigError where
  | badCommandConfig (field : String)
deriving DecidableEq

/-- Rust's `str::parse::<i64>`: optional sign, at least one ASCII digit,
nothing else, and the value must fit in `i64`. -/
def parseI64 (s : String) : Option Int :=
  let signDigits : Int × List Char :=
    match s.data with
    | '+' :: rest => (1, rest)
    | '-' :: rest => (-1, rest)
    | l => (1, l)
  if signDigits.2 = [] then none
  else if signDigits.2.all Char.isDigit then
    let v : Int := signDigits.1 * (signDigits.2.foldl (fun acc c => acc * 10 + (c.toNat - '0'.toNat)) 0)
    if -(2 ^ 63) ≤ v ∧ v ≤ 2 ^ 63 - 1 then some v else none
  else none

/-- Rust's `str::ends_with(char)`: true exactly when the string is
nonempty and its last character is `c`. -/
def endsWithChar (s : String) (c : Char) : Bool :=
  s.data.getLast? == some c

/-- `chrono::Duration::seconds`, as a length in seconds. -/
def Duration.seconds (n : Int) : Int := n

/-- `chrono::Duration::minutes`. -/
def Duration.minutes (n : Int) : Int := n * 60

/-- `chrono::Duration::hours`. -/
def Duration.hours (n : Int) : Int := n * 3600

/-- `chrono::Duration::days`. -/
def Duration.days (n : Int) : Int := n * 86400

/-- `chrono::Duration::weeks`. -/
def Duration.weeks (n : Int) : Int := n * 604800

/-- `parse_backup_strategy_period` (`command_config.rs` lines 217-267):
parse all but the last character as an `i64`, then dispatch on the unit
suffix; any unrecognized suffix is a configuration error. The source
slices bytes (`period.get(..len - 1)`); this model slices characters,
which agrees on every string whose last character is ASCII. -/
def parse_backup_strategy_period (period : String) : Except ConfigError Int :=
  match parseI64 (period.take (period.length - 1)) with
  | none => Except.error (ConfigError.badCommandConfig ("backup strategy period"))
  | some number =>
    if endsWithChar period 's' then Except.ok (Duration.seconds number)
    else if endsWithChar period 'm' then Except.ok (Duration.minutes number)
    else if endsWithChar period 'h' then Except.ok (Duration.hours number)
    else if endsWithChar period 'd' then Except.ok (Duration.days number)
    else if endsWithChar period 'w' then Except.ok (Duration.weeks number)
    else Except.error (ConfigError.badCommandConfig ("backup strategy duration"))

/-- Whether a parse attempt was rejected with a configuration error. -/
def isRejected (r : Except ConfigError Int) : Bool :=
  match r with
  | Except.error _ => true
  | Except.ok _ => false

theorem crashCount_foldl (now P : Int) (cs : List Int) (c : Nat) :
    cs.foldl (fun c t => if now - P < t then c + 1 else c) c
      = c + (cs.filter fun t => now - P < t).length := by
  induction cs generalizing c with
  | nil => simp
  | cons t rest ih =>
    by_cases h : now - P < t
    · simp [h, ih]
      omega
    · simp [h, ih]

theorem crashCount_eq_filter (now P : Int) (cs : List Int) :
    crashCount now P cs = (cs.filter fun t => now - P < t).length := by
  simpa [crashCount] using crashCount_foldl now P cs 0

/-- C5: Crash-window counting. The count accumulated by the ledger scan of
`run_until_success`/`run_keep_alive` equals the number of ledger entries
strictly newer than `now - period`, and an entry at or before `now - period`
contributes nothing to it. -/
theorem crash_window_count_correct (now P : Int) (cs : List Int) :
    crashCount now P cs = (cs.filter fun t => now - P < t).length
    ∧ (∀ t : Int, ¬(now - P < t) → crashCount now P (cs ++ [t]) = crashCount now P cs) := by
  refine ⟨crashCount_eq_filter now P cs, fun t ht => ?_⟩
  rw [crashCount_eq_filter, crashCount_eq_filter, List.filter_append]
  simp [ht]

/-- Witness for `crash_window_count_correct` at a concrete ledger: crashes
at 10, 40, 100 with the window ending at 100 and period 60 count only the
entries strictly after 40; appending an entry at exactly 40 changes
nothing. -/
theorem crash_window_count_correct_witness :
    crashCount 100 60 [10, 40, 100] = 1
    ∧ crashCount 100 60 [10, 40, 100, 40] = crashCount 100 60 [10, 40, 100] := by
  have h := crash_window_count_correct 100 60 [10, 40, 100]
  refine ⟨by rw [h.1]; decide, h.2 40 (by decide)⟩

theorem parse_period_rejects (p : String)
    (h : ∀ c : Char, c ∈ (['s', 'm', 'h', 'd', 'w'] : List Char) → p.data.getLast? ≠ some c) :
    isRejected (parse_backup_strategy_period p) = true := by
  have hw : ∀ c : Char, c ∈ (['s', 'm', 'h', 'd', 'w'] : List Char) →
      endsWithChar p c = false := by
    intro c hc
    simp only [endsWithChar, beq_eq_false_iff_ne, ne_eq]
    exact h c hc
  unfold parse_backup_strategy_period
  cases parseI64 (p.take (p.length - 1)) with
  | none => rfl
  | some n =>
    simp only [hw 's' (by decide), hw 'm' (by decide), hw 'h' (by decide),
      hw 'd' (by decide), hw 'w' (by decide), Bool.false_eq_true, if_false]
    rfl

/-- C9: Backup-strategy period parsing. `"125w"` parses to exactly
125 weeks, `"1m"` to exactly 1 minute, and any period string whose last
character is not one of the unit suffixes `s`, `m`, `h`, `d`, `w` is
rejected with a configuration error. -/
theorem backup_period_parse_round_trip :
    parse_backup_strategy_period "125w" = Except.ok (Duration.weeks 125)
    ∧ parse_backup_strategy_period "1m" = Except.ok (Duration.minutes 1)
    ∧ ∀ p : String,
        (∀ c : Char, c ∈ (['s', 'm', 'h', 'd', 'w'] : List Char) →
          p.data.getLast? ≠ some c) →
        isRejected (parse_backup_strategy_period p) = true :=
  ⟨rfl, rfl, parse_period_rejects⟩

/-- Witness for `backup_period_parse_round_trip`: the string `"125x"` ends
in none of the recognized suffixes and is rejected. -/
theorem backup_period_parse_round_trip_witness :
    isRejected (parse_backup_strategy_period "125x") = true :=
  backup_period_parse_round_trip.2.2 "125x" (by decide)

/-- C10: Dashboard tab navigation. The consumer starts from the empty tab
list; on the empty list `Input(Right)` computes `(index + 1) % 0` and
`Input(Left)` computes `0 - 1` on a `usize`, either of which kills the
consumer (modelled as `none`); on any nonempty tab list both keep the
selected index strictly below the tab count, `Right` wrapping from the
last tab to the first and `Left` from the first to the last; and
`TabListChanged` rebuilds the whole tab list. -/
theorem tab_navigation_partial_on_empty :
    (TuiState.build []).tabs = []
    ∧ start_display_loop_step (TuiState.build []) (TuiEvent.Input Key.Right) = none
    ∧ start_display_loop_step (TuiState.build []) (TuiEvent.Input Key.Left) = none
    ∧ (∀ (st : TuiState) (titles : List String),
        start_display_loop_step st (TuiEvent.TabListChanged titles)
          = some { st with tabs := titles.map TabState.build })
    ∧ (∀ st : TuiState, st.tabs ≠ [] →
        ∃ st2, start_display_loop_step st (TuiEvent.Input Key.Right) = some st2
          ∧ st2.tabs = st.tabs ∧ st2.index < st.tabs.length
          ∧ (st.index + 1 = st.tabs.length → st2.index = 0))
    ∧ (∀ st : TuiState, st.tabs ≠ [] → st.index < st.tabs.length →
        ∃ st2, start_display_loop_step st (TuiEvent.Input Key.Left) = some st2
          ∧ st2.tabs = st.tabs ∧ st2.index < st.tabs.length
          ∧ (st.index = 0 → st2.index = st.tabs.length - 1)) := by
  refine ⟨rfl, rfl, rfl, fun st titles => rfl, fun st hne => ?_, fun st hne hlt => ?_⟩
  · have hpos : 0 < st.tabs.length := List.length_pos.mpr hne
    refine ⟨{ st with index := (st.index + 1) % st.tabs.length }, ?_, rfl, ?_, ?_⟩
    · simp [start_display_loop_step, TuiState.next, Nat.pos_iff_ne_zero.mp hpos]
    · exact Nat.mod_lt _ hpos
    · intro hw
      simp [hw]
  · have hpos : 0 < st.tabs.length := List.length_pos.mpr hne
    by_cases h0 : st.index > 0
    · refine ⟨{ st with index := st.index - 1 }, ?_,  rfl, ?_, ?_⟩
      · simp [start_display_loop_step, TuiState.previous, h0]
      · show st.index - 1 < st.tabs.length
        omega
      · intro hz
        omega
    · refine ⟨{ st with index := st.tabs.length - 1 }, ?_, rfl, ?_, fun _ => rfl⟩
      · simp [start_display_loop_step, TuiState.previous, h0, Nat.pos_iff_ne_zero.mp hpos]
      · show st.tabs.length - 1 < st.tabs.length
        omega

/-- Witness for `tab_navigation_partial_on_empty` on a concrete two-tab
state: `Right` at the last tab wraps to index 0, `Left` at the first tab
wraps to index 1. -/
theorem tab_navigation_partial_on_empty_witness :
    (∃ st2, start_display_loop_step ⟨[TabState.build "a", TabState.build "b"], 1⟩
        (TuiEvent.Input Key.Right) = some st2 ∧ st2.index = 0)
    ∧ (∃ st2, start_display_loop_step ⟨[TabState.build "a", TabState.build "b"], 0⟩
        (TuiEvent.Input Key.Left) = some st2 ∧ st2.index = 1) := by
  constructor
  · obtain ⟨st2, h1, _, _, h4⟩ :=
      tab_navigation_partial_on_empty.2.2.2.2.1
        ⟨[TabState.build "a", TabState.build "b"], 1⟩ (by simp)
    exact ⟨st2, h1, h4 rfl⟩
  · obtain ⟨st2, h1, _, _, h4⟩ :=
      tab_navigation_partial_on_empty.2.2.2.2.2
        ⟨[TabState.build "a", TabState.build "b"], 0⟩ (by simp) (by simp)
    exact ⟨st2, h1, h4 rfl⟩

theorem take_cons_take {α : Type} (A : List α) (x : α) (d : List α) :
    ∀ m k : Nat, m ≤ k + 1 → (A ++ x :: d.take k).take m = (A ++ x :: d).take m := by
  induction A with
  | nil =>
    intro m k h
    cases m with
    | zero => simp
    | succ j =>
      simp only [List.nil_append, List.take_succ_cons, List.take_take]
      rw [Nat.min_eq_left (by omega)]
  | cons a A ih =>
    intro m k h
    cases m with
    | zero => simp
    | succ j =>
      simp only [List.cons_append, List.take_succ_cons]
      rw [ih j k (by omega)]

theorem push_data_cap_zero {α : Type} (ls : List α) :
    ∀ q : CircularQueue α, q.capacity = 0 → ls.foldl CircularQueue.push q = q := by
  induction ls with
  | nil => intro q _; rfl
  | cons x rest ih =>
    intro q h
    rw [List.foldl_cons]
    have : CircularQueue.push q x = q := by simp [CircularQueue.push, h]
    rw [this]
    exact ih q h

theorem foldl_push_data {α : Type} (cap : Nat) (ls : List α) :
    ∀ d : List α, d.length ≤ cap →
      (ls.foldl CircularQueue.push { capacity := cap, data := d }).data
        = (ls.reverse ++ d).take cap := by
  cases cap with
  | zero =>
    intro d hd
    have hd0 : d = [] := List.eq_nil_of_length_eq_zero (Nat.le_zero.mp hd)
    subst hd0
    rw [push_data_cap_zero ls _ rfl]
    simp
  | succ c =>
    induction ls with
    | nil =>
      intro d hd
      simpa using List.take_of_length_le hd
    | cons x rest ih =>
      intro d hd
      have hpush : CircularQueue.push { capacity := c + 1, data := d } x
          = { capacity := c + 1, data := x :: d.take c } := by
        simp [CircularQueue.push]
      rw [List.foldl_cons, hpush,
        ih (x :: d.take c) (by simp [List.length_take])]
      rw [List.reverse_cons, List.append_assoc, List.singleton_append]
      exact take_cons_take _ x d (c + 1) c (by omega)

theorem monitor_stdout_buffer (q : LogT) (lines : List (DateTimeUtc × String)) (id : Nat) :
    (monitor_stdout q lines id).1 = lines.foldl CircularQueue.push q := by
  induction lines generalizing q with
  | nil => rfl
  | cons l rest ih =>
    obtain ⟨t, line⟩ := l
    simp [monitor_stdout, ih]

theorem monitor_stdout_data (cap : Nat) (lines : List (DateTimeUtc × String)) (id : Nat) :
    ((monitor_stdout (CircularQueue.with_capacity (DateTimeUtc × String) cap) lines id).1).data
      = lines.reverse.take cap := by
  rw [monitor_stdout_buffer]
  simpa [CircularQueue.with_capacity] using foldl_push_data cap lines [] (by simp)

/-- C2 (amended): Bounded stdout history. Feeding `n` lines through
`monitor_stdout` with capacity `stdout_history` leaves exactly the last
`stdout_history` lines in the buffer, **newest first** (the
`CircularQueue` iterates from the most recently pushed entry); the buffer
size never exceeds the capacity; pushing into a full queue evicts exactly
the oldest entry; and the crash dump contains those retained lines in the
same newest-first order. -/
theorem stdout_dump_last_capacity_lines_newest_first
    (cap : Nat) (lines : List (DateTimeUtc × String)) (id : Nat) :
    ((monitor_stdout (CircularQueue.with_capacity (DateTimeUtc × String) cap) lines id).1).data
        = lines.reverse.take cap
    ∧ ((monitor_stdout (CircularQueue.with_capacity (DateTimeUtc × String) cap) lines id).1).len
        ≤ cap
    ∧ (∀ (q : LogT) (x : DateTimeUtc × String),
        q.len = q.capacity → 0 < q.capacity →
        CircularQueue.iter (CircularQueue.push q x)
          = x :: (CircularQueue.iter q).dropLast)
    ∧ (lines ≠ [] → 0 < cap →
        save_to_file (monitor_stdout (CircularQueue.with_capacity (DateTimeUtc × String) cap) lines id).1
          = some ((lines.reverse.take cap).map dumpLine)) := by
  refine ⟨monitor_stdout_data cap lines id, ?_, ?_, ?_⟩
  · show ((monitor_stdout _ lines id).1).data.length ≤ cap
    rw [monitor_stdout_data cap lines id]
    exact List.length_take_le cap _
  · intro q x hfull hpos
    have hne : q.capacity ≠ 0 := by omega
    show (CircularQueue.push q x).data = x :: q.data.dropLast
    simp only [CircularQueue.push, hne, if_neg, ite_false]
    rw [List.dropLast_eq_take]
    have : q.data.length = q.capacity := hfull
    rw [this]
  · intro hne hpos
    have hdata := monitor_stdout_data cap lines id
    have hnonempty : lines.reverse.take cap ≠ [] := by
      simp only [ne_eq, List.take_eq_nil_iff]
      push_neg
      exact ⟨by omega, by simpa using hne⟩
    unfold save_to_file
    rw [show CircularQueue.is_empty (monitor_stdout (CircularQueue.with_capacity (DateTimeUtc × String) cap) lines id).1
        = (lines.reverse.take cap).isEmpty from by
      simp [CircularQueue.is_empty, hdata]]
    simp only [List.isEmpty_iff]
    rw [if_neg hnonempty]
    unfold CircularQueue.iter
    rw [hdata]

/-- Timestamps used by the concrete buffer scenarios. -/
def tA : DateTimeUtc := ⟨2021, 1, 1, 0, 0, 1⟩

/-- Second timestamp of the concrete buffer scenarios. -/
def tB : DateTimeUtc := ⟨2021, 1, 1, 0, 0, 2⟩

/-- Third timestamp of the concrete buffer scenarios. -/
def tC : DateTimeUtc := ⟨2021, 1, 1, 0, 0, 3⟩

/-- C2 counterexample: with capacity 2 and lines `first`, `second`,
`third` (in that emission order), the dumped `stdout.txt` holds the last 2
lines but lists `third` before `second` — the reverse of their original
emission order, refuting "oldest retained line first". -/
theorem stdout_dump_not_emission_order :
    save_to_file (monitor_stdout (CircularQueue.with_capacity (DateTimeUtc × String) 2)
        [(tA, "first"), (tB, "second"), (tC, "third")] 0).1
      = some [dumpLine (tC, "third"), dumpLine (tB, "second")]
    ∧ [dumpLine (tC, "third"), dumpLine (tB, "second")]
      ≠ [dumpLine (tB, "second"), dumpLine (tC, "third")] := by
  exact ⟨by decide, by decide⟩

/-- Witness for `stdout_dump_last_capacity_lines_newest_first`: the C2
scenario at capacity 2 with three lines, its hypotheses discharged at a
concrete full queue and nonempty line list. -/
theorem stdout_dump_last_capacity_lines_newest_first_witness :
    ((monitor_stdout (CircularQueue.with_capacity (DateTimeUtc × String) 2)
        [(tA, "first"), (tB, "second"), (tC, "third")] 0).1).data
      = [(tC, "third"), (tB, "second")]
    ∧ CircularQueue.iter
        (CircularQueue.push (⟨2, [(tB, "second"), (tA, "first")]⟩ : LogT) (tC, "third"))
      = [(tC, "third"), (tB, "second")]
    ∧ save_to_file (monitor_stdout (CircularQueue.with_capacity (DateTimeUtc × String) 2)
        [(tA, "first"), (tB, "second"), (tC, "third")] 0).1
      = some [dumpLine (tC, "third"), dumpLine (tB, "second")] := by
  obtain ⟨h1, _, h3, h4⟩ := stdout_dump_last_capacity_lines_newest_first 2
    [(tA, "first"), (tB, "second"), (tC, "third")] 0
  refine ⟨by rw [h1]; rfl, ?_, ?_⟩
  · rw [h3 (⟨2, [(tB, "second"), (tA, "first")]⟩ : LogT) (tC, "third") rfl (by decide)]
    rfl
  · rw [h4 (by decide) (by decide)]
    rfl

/-- C8 counterexample: the dumped line for a buffered entry is the
`to_rfc3339` rendering (date included), not the `%H:%M:%S | text` format
the spec states. -/
theorem stdout_dump_line_format_not_hms :
    dumpLine (tA, "hello") = "2021-01-01T00:00:01+00:00 | hello"
    ∧ dumpLine (tA, "hello") ≠ hmsLine tA ("hello") := by
  exact ⟨by decide, by decide⟩

/-- C8 (amended): the stdout crash dump exists exactly for failed exits
with a nonempty buffer, holds one line per buffered entry, and each line
has the format `<RFC3339 timestamp> | <text>`. -/
theorem stdout_dump_only_when_nonempty_rfc3339 (buffer : LogT) (st : ExitStatus) :
    (CircularQueue.is_empty buffer = true → save_to_file buffer = none)
    ∧ (CircularQueue.is_empty buffer = false →
        save_to_file buffer = some ((CircularQueue.iter buffer).map dumpLine)
        ∧ ((CircularQueue.iter buffer).map dumpLine).length = CircularQueue.len buffer)
    ∧ (st = ExitStatus.exited 0 → crashDumpStep st buffer = none)
    ∧ (st ≠ ExitStatus.exited 0 → crashDumpStep st buffer = save_to_file buffer) := by
  refine ⟨fun h => ?_, fun h => ⟨?_, ?_⟩, fun h => ?_, fun h => ?_⟩
  · simp [save_to_file, h]
  · simp [save_to_file, h]
  · simp [CircularQueue.len, CircularQueue.iter]
  · simp [crashDumpStep, h]
  · simp only [crashDumpStep, if_neg h]

/-- Witness for `stdout_dump_only_when_nonempty_rfc3339`: a concrete
one-entry buffer with a failing exit status produces the RFC3339-formatted
dump; the empty buffer produces no file; a clean exit produces no file. -/
theorem stdout_dump_only_when_nonempty_rfc3339_witness :
    crashDumpStep (ExitStatus.exited 1) (⟨1000, [(tA, "hello")]⟩ : LogT)
      = some [dumpLine (tA, "hello")]
    ∧ save_to_file (⟨1000, []⟩ : LogT) = none
    ∧ crashDumpStep (ExitStatus.exited 0) (⟨1000, [(tA, "hello")]⟩ : LogT) = none := by
  obtain ⟨-, h2, -, h4⟩ :=
    stdout_dump_only_when_nonempty_rfc3339 (⟨1000, [(tA, "hello")]⟩ : LogT) (ExitStatus.exited 1)
  refine ⟨?_, ?_, ?_⟩
  · rw [h4 (by decide), (h2 rfl).1]
    rfl
  · exact (stdout_dump_only_when_nonempty_rfc3339 (⟨1000, []⟩ : LogT) ExitStatus.other).1 rfl
  · exact (stdout_dump_only_when_nonempty_rfc3339 (⟨1000, [(tA, "hello")]⟩ : LogT)
      (ExitStatus.exited 0)).2.2.1 rfl

theorem failLen_cons (a : Attempt) (rest : List Attempt) :
    failLen (a :: rest) = if a.ok then 0 else failLen rest + 1 := by
  cases h : a.ok <;> simp [failLen, List.takeWhile_cons, h]

theorem remedyList_eq_nil_iff (s : BackupStrategy) (cmd : CommandConfig) :
    remedyList s cmd = [] ↔ (s.script.isNone && s.safe_mode.isNone) = true := by
  cases hs : s.script <;> cases hm : s.safe_mode <;>
    simp [remedyList, scriptConfig, safeModeConfig, hs, hm]

theorem runRemedies_allOk (ri : Nat) (l : List CommandConfig) :
    runRemedies (fun _ => true) ri l = (true, ri + l.length, l) := by
  induction l generalizing ri with
  | nil => simp [runRemedies]
  | cons c cs ih =>
    simp [runRemedies, ih (ri + 1)]
    omega

theorem escalationCheck_cons (s : BackupStrategy) (cmd : CommandConfig) (id : Nat)
    (now : Int) (remOk : Nat → Bool) (t : Int) (rest : List Int)
    (count ri : Nat) (acc : List CommandConfig) :
    escalationCheck s cmd id now remOk (t :: rest) count ri acc
      = (if (if now - s.period < t then count + 1 else count) > s.times then
           if s.script.isNone && s.safe_mode.isNone then
             EscOutcome.gaveUp acc (TuiEvent.NewStderrMessage id giveUpMsg) ri
           else if (runRemedies remOk ri (remedyList s cmd)).1 then
             escalationCheck s cmd id now remOk rest
               (if now - s.period < t then count + 1 else count)
               (runRemedies remOk ri (remedyList s cmd)).2.1
               (acc ++ (runRemedies remOk ri (remedyList s cmd)).2.2)
           else
             EscOutcome.failedRemedy (acc ++ (runRemedies remOk ri (remedyList s cmd)).2.2)
               (runRemedies remOk ri (remedyList s cmd)).2.1
         else
           escalationCheck s cmd id now remOk rest
             (if now - s.period < t then count + 1 else count) ri acc) := rfl

theorem trigCount_cons (s : BackupStrategy) (now t : Int) (rest : List Int) (c : Nat) :
    trigCount s now (t :: rest) c
      = (if (if now - s.period < t then c + 1 else c) > s.times then 1 else 0)
        + trigCount s now rest (if now - s.period < t then c + 1 else c) := rfl

theorem escalationCheck_allOk (s : BackupStrategy) (cmd : CommandConfig) (id : Nat)
    (now : Int) (hrem : remedyList s cmd ≠ []) (cs : List Int) :
    ∀ (count ri : Nat) (acc : List CommandConfig),
    escalationCheck s cmd id now (fun _ => true) cs count ri acc
      = EscOutcome.resume (acc ++ repRem (trigCount s now cs count) (remedyList s cmd))
          (ri + trigCount s now cs count * (remedyList s cmd).length) := by
  have hflag : (s.script.isNone && s.safe_mode.isNone) = false := by
    cases h : (s.script.isNone && s.safe_mode.isNone) with
    | false => rfl
    | true => exact absurd ((remedyList_eq_nil_iff s cmd).mpr h) hrem
  induction cs with
  | nil =>
    intro count ri acc
    simp [escalationCheck, trigCount, repRem]
  | cons t rest ih =>
    intro count ri acc
    rw [escalationCheck_cons, trigCount_cons]
    by_cases hc : (if now - s.period < t then count + 1 else count) > s.times
    · rw [if_pos hc, hflag]
      simp only [Bool.false_eq_true, if_false, runRemedies_allOk, if_pos]
      rw [ih _ _ _]
      rw [if_pos hc]
      have hrep : repRem (1 + trigCount s now rest (if now - s.period < t then count + 1 else count))
          (remedyList s cmd)
          = remedyList s cmd
            ++ repRem (trigCount s now rest (if now - s.period < t then count + 1 else count))
              (remedyList s cmd) := by
        simp [repRem, List.replicate_succ']
        rw [show 1 + trigCount s now rest (if now - s.period < t then count + 1 else count)
            = trigCount s now rest (if now - s.period < t then count + 1 else count) + 1 from by omega]
        simp [List.replicate_succ]
      rw [hrep]
      simp only [EscOutcome.resume.injEq]
      exact ⟨by rw [List.append_assoc], by ring⟩
    · rw [if_neg hc, ih _ _ _, if_neg hc]
      simp

theorem escalationCheck_noRemedy (s : BackupStrategy) (cmd : CommandConfig) (id : Nat)
    (now : Int) (remOk : Nat → Bool)
    (h1 : s.script = none) (h2 : s.safe_mode = none) (cs : List Int) :
    ∀ (count ri : Nat) (acc : List CommandConfig),
      escalationCheck s cmd id now remOk cs count ri acc = EscOutcome.resume acc ri
      ∨ escalationCheck s cmd id now remOk cs count ri acc
          = EscOutcome.gaveUp acc (TuiEvent.NewStderrMessage id giveUpMsg) ri := by
  induction cs with
  | nil =>
    intro count ri acc
    left
    simp [escalationCheck]
  | cons t rest ih =>
    intro count ri acc
    rw [escalationCheck_cons]
    by_cases hc : (if now - s.period < t then count + 1 else count) > s.times
    · rw [if_pos hc]
      right
      simp [h1, h2]
    · rw [if_neg hc]
      exact ih _ ri acc

theorem crashCount_foldl_ge (now P : Int) (cs : List Int) :
    ∀ c : Nat, c ≤ cs.foldl (fun c t => if now - P < t then c + 1 else c) c := by
  induction cs with
  | nil => intro c; simp
  | cons t rest ih =>
    intro c
    rw [List.foldl_cons]
    refine le_trans ?_ (ih (if now - P < t then c + 1 else c))
    split <;> omega

theorem trigCount_zero_iff (s : BackupStrategy) (now : Int) (cs : List Int) :
    ∀ c : Nat, c ≤ s.times →
    (trigCount s now cs c = 0
      ↔ cs.foldl (fun c t => if now - s.period < t then c + 1 else c) c ≤ s.times) := by
  induction cs with
  | nil =>
    intro c hc
    simpa [trigCount] using hc
  | cons t rest ih =>
    intro c hc
    rw [trigCount_cons, List.foldl_cons]
    by_cases ht : (if now - s.period < t then c + 1 else c) > s.times
    · rw [if_pos ht]
      constructor
      · intro h
        omega
      · intro h
        exact absurd (le_trans (crashCount_foldl_ge now s.period rest _) h) (by omega)
    · rw [if_neg ht]
      simpa using ih (if now - s.period < t then c + 1 else c) (by omega)

/-- The concrete scenario-A strategy: `times = 2`, `period = 1m`, with a
backup script configured so that the remedy exists. -/
def sA : BackupStrategy :=
  { times := 2, period := 60, script := some "remedy", safe_mode := none }

/-- The scenario-A descriptor: `/bin/false` under RunUntilSuccess. -/
def cmdA : CommandConfig :=
  { command := "/bin/false", args := [], stdout_history := 1000,
    mode := CommandMode.RunUntilSuccess, name := "false", backup_strategy := some sA }

/-- The one-shot descriptor the engine builds for `sA`'s script. -/
def remA : CommandConfig :=
  { command := "remedy", args := [], stdout_history := 1000,
    mode := CommandMode.RunOnceAndWait, name := "remedy", backup_strategy := none }

/-- C1 counterexample: one single escalation check over a ledger of four
in-window crashes with `times = 2` runs the remedy twice — once for the
third entry and once for the fourth — refuting "a single escalation check
never runs the remedy more than one time". -/
theorem esc_check_can_fire_remedy_twice :
    escalationCheck sA cmdA 0 0 (fun _ => true) [0, 0, 0, 0] 0 0 []
      = EscOutcome.resume [remA, remA] 2
    ∧ 1 < ([remA, remA] : List CommandConfig).length := by
  exact ⟨by decide, by decide⟩

/-- C1 (amended): one escalation check runs the remedy block once per
ledger entry whose running in-window count exceeds `times` (so it can fire
more than once per check when the window holds more than `times + 1`
crashes); it fires at all exactly when the in-window crash count exceeds
`times`. For scenario A (`times = 2`, three failures inside the window)
this yields exactly one remedy firing, on the third failure. -/
theorem esc_check_fires_once_per_entry_past_threshold
    (s : BackupStrategy) (cmd : CommandConfig) (id : Nat) (now : Int)
    (crashes : List Int) (hrem : remedyList s cmd ≠ []) :
    escalationCheck s cmd id now (fun _ => true) crashes 0 0 []
      = EscOutcome.resume (repRem (trigCount s now crashes 0) (remedyList s cmd))
          (trigCount s now crashes 0 * (remedyList s cmd).length)
    ∧ (trigCount s now crashes 0 = 0 ↔ crashCount now s.period crashes ≤ s.times) := by
  constructor
  · simpa using escalationCheck_allOk s cmd id now hrem crashes 0 0 []
  · exact trigCount_zero_iff s now crashes 0 (Nat.zero_le _)

/-- Witness for `esc_check_fires_once_per_entry_past_threshold`:
scenario A. After the third failure within one minute (ledger `[0, 1, 2]`,
checked at time 2) the remedy fires exactly once; after only two failures
(ledger `[0, 1]`, checked at time 1) it does not fire at all. -/
theorem esc_check_fires_once_per_entry_witness :
    escalationCheck sA cmdA 0 2 (fun _ => true) [0, 1, 2] 0 0 []
      = EscOutcome.resume [remA] 1
    ∧ trigCount sA 1 [0, 1] 0 = 0 := by
  have h3 := esc_check_fires_once_per_entry_past_threshold sA cmdA 0 2 [0, 1, 2] (by decide)
  have h2 := esc_check_fires_once_per_entry_past_threshold sA cmdA 0 1 [0, 1] (by decide)
  constructor
  · rw [h3.1]
    decide
  · exact h2.2.mpr (by decide)

theorem runUntilSuccessLoop_cons (cmd : CommandConfig) (id : Nat) (remOk : Nat → Bool)
    (a : Attempt) (rest : List Attempt) (crashes : List Int) (ri n : Nat)
    (rem : List CommandConfig) (esc : Nat) :
    runUntilSuccessLoop cmd id remOk (a :: rest) crashes ri n rem esc
      = (if a.ok then RunResult.ok (n + 1) rem esc
         else
           match cmd.backup_strategy with
           | none =>
             runUntilSuccessLoop cmd id remOk rest (crashes ++ [a.time]) ri (n + 1) rem esc
           | some strategy =>
             match escalationCheck strategy cmd id a.time remOk (crashes ++ [a.time]) 0 ri [] with
             | EscOutcome.resume run ri2 =>
               runUntilSuccessLoop cmd id remOk rest (crashes ++ [a.time]) ri2 (n + 1)
                 (rem ++ run) (esc + 1)
             | EscOutcome.gaveUp run ev _ =>
               RunResult.gaveUp (n + 1) (rem ++ run) (esc + 1) ev
             | EscOutcome.failedRemedy run _ =>
               RunResult.err (n + 1) (rem ++ run) (esc + 1)) := rfl

theorem runKeepAliveLoop_cons (cmd : CommandConfig) (id : Nat) (remOk : Nat → Bool)
    (a : Attempt) (rest : List Attempt) (crashes : List Int) (ri n : Nat)
    (rem : List CommandConfig) (esc : Nat) :
    runKeepAliveLoop cmd id remOk (a :: rest) crashes ri n rem esc
      = (if a.ok then runKeepAliveLoop cmd id remOk rest crashes ri (n + 1) rem esc
         else
           match cmd.backup_strategy with
           | none =>
             runKeepAliveLoop cmd id remOk rest (crashes ++ [a.time]) ri (n + 1) rem esc
           | some strategy =>
             match escalationCheck strategy cmd id a.time remOk (crashes ++ [a.time]) 0 ri [] with
             | EscOutcome.resume run ri2 =>
               runKeepAliveLoop cmd id remOk rest (crashes ++ [a.time]) ri2 (n + 1)
                 (rem ++ run) (esc + 1)
             | EscOutcome.gaveUp run ev _ =>
               RunResult.gaveUp (n + 1) (rem ++ run) (esc + 1) ev
             | EscOutcome.failedRemedy run _ =>
               RunResult.err (n + 1) (rem ++ run) (esc + 1)) := rfl

theorem untilSuccess_attempts_le (cmd : CommandConfig) (id : Nat) (remOk : Nat → Bool)
    (as : List Attempt) :
    ∀ (crashes : List Int) (ri n : Nat) (rem : List CommandConfig) (esc : Nat),
    (runUntilSuccessLoop cmd id remOk as crashes ri n rem esc).attempts
      ≤ n + failLen as + 1 := by
  induction as with
  | nil =>
    intro crashes ri n rem esc
    simp [runUntilSuccessLoop, RunResult.attempts, failLen]
  | cons a rest ih =>
    intro crashes ri n rem esc
    rw [runUntilSuccessLoop_cons, failLen_cons]
    by_cases ha : a.ok
    · rw [if_pos ha, if_pos ha]
      simp [RunResult.attempts]
    · rw [if_neg ha, if_neg ha]
      cases hbs : cmd.backup_strategy with
      | none =>
        simp only
        refine le_trans (ih (crashes ++ [a.time]) ri (n + 1) rem esc) ?_
        omega
      | some strategy =>
        simp only
        cases hesc : escalationCheck strategy cmd id a.time remOk (crashes ++ [a.time]) 0 ri [] with
        | resume run ri2 =>
          refine le_trans (ih (crashes ++ [a.time]) ri2 (n + 1) (rem ++ run) (esc + 1)) ?_
          omega
        | gaveUp run ev ri2 =>
          simp [RunResult.attempts]
        | failedRemedy run ri2 =>
          simp [RunResult.attempts]

theorem untilSuccess_noStrategy (cmd : CommandConfig) (id : Nat) (remOk : Nat → Bool)
    (hs : cmd.backup_strategy = none) (as : List Attempt) :
    ∀ (crashes : List Int) (ri n : Nat) (rem : List CommandConfig) (esc : Nat),
    runUntilSuccessLoop cmd id remOk as crashes ri n rem esc
      = if as.any (fun a => a.ok) then RunResult.ok (n + failLen as + 1) rem esc
        else RunResult.pending (n + as.length) rem esc (crashes ++ as.map Attempt.time) := by
  induction as with
  | nil =>
    intro crashes ri n rem esc
    simp [runUntilSuccessLoop, failLen]
  | cons a rest ih =>
    intro crashes ri n rem esc
    rw [runUntilSuccessLoop_cons]
    by_cases ha : a.ok
    · rw [if_pos ha]
      simp [ha, failLen_cons]
    · rw [if_neg ha]
      simp only [hs]
      rw [ih (crashes ++ [a.time]) ri (n + 1) rem esc]
      rw [List.any_cons, failLen_cons, if_neg ha]
      rw [show (a.ok || rest.any fun a => a.ok) = rest.any fun a => a.ok from by
        rw [Bool.eq_false_iff.mpr ha, Bool.false_or]]
      by_cases hrest : (rest.any fun a => a.ok) = true
      · rw [if_pos hrest, if_pos hrest, RunResult.ok.injEq]
        refine ⟨by omega, rfl, rfl⟩
      · rw [if_neg hrest, if_neg hrest, RunResult.pending.injEq]
        refine ⟨by simp; omega, rfl, rfl, ?_⟩
        simp

theorem untilSuccess_append (cmd : CommandConfig) (id : Nat) (remOk : Nat → Bool)
    (extra : List Attempt) (as : List Attempt) :
    ∀ (crashes : List Int) (ri n : Nat) (rem : List CommandConfig) (esc : Nat),
    (runUntilSuccessLoop cmd id remOk as crashes ri n rem esc).isDone = true →
    runUntilSuccessLoop cmd id remOk (as ++ extra) crashes ri n rem esc
      = runUntilSuccessLoop cmd id remOk as crashes ri n rem esc := by
  induction as with
  | nil =>
    intro crashes ri n rem esc h
    simp [runUntilSuccessLoop, RunResult.isDone] at h
  | cons a rest ih =>
    intro crashes ri n rem esc h
    rw [runUntilSuccessLoop_cons] at h
    rw [List.cons_append, runUntilSuccessLoop_cons, runUntilSuccessLoop_cons]
    by_cases ha : a.ok
    · rw [if_pos ha, if_pos ha]
    · rw [if_neg ha, if_neg ha]
      rw [if_neg ha] at h
      cases hbs : cmd.backup_strategy with
      | none =>
        simp only [hbs] at h ⊢
        exact ih (crashes ++ [a.time]) ri (n + 1) rem esc h
      | some strategy =>
        simp only [hbs] at h ⊢
        cases hesc : escalationCheck strategy cmd id a.time remOk (crashes ++ [a.time]) 0 ri [] with
        | resume run ri2 =>
          rw [hesc] at h
          dsimp only at h ⊢
          exact ih (crashes ++ [a.time]) ri2 (n + 1) (rem ++ run) (esc + 1) h
        | gaveUp run ev ri2 => dsimp only
        | failedRemedy run ri2 => dsimp only

theorem untilSuccess_gaveUp_ev (cmd : CommandConfig) (id : Nat) (remOk : Nat → Bool)
    (s : BackupStrategy) (hs : cmd.backup_strategy = some s)
    (h1 : s.script = none) (h2 : s.safe_mode = none) (as : List Attempt) :
    ∀ (crashes : List Int) (ri n : Nat) (rem : List CommandConfig) (esc n2 : Nat)
      (rem2 : List CommandConfig) (esc2 : Nat) (ev : TuiEvent),
    runUntilSuccessLoop cmd id remOk as crashes ri n rem esc
        = RunResult.gaveUp n2 rem2 esc2 ev →
    ev = TuiEvent.NewStderrMessage id giveUpMsg ∧ rem2 = rem := by
  induction as with
  | nil =>
    intro crashes ri n rem esc n2 rem2 esc2 ev h
    simp [runUntilSuccessLoop] at h
  | cons a rest ih =>
    intro crashes ri n rem esc n2 rem2 esc2 ev h
    rw [runUntilSuccessLoop_cons] at h
    by_cases ha : a.ok
    · rw [if_pos ha] at h
      simp at h
    · rw [if_neg ha] at h
      simp only [hs] at h
      rcases escalationCheck_noRemedy s cmd id a.time remOk h1 h2 (crashes ++ [a.time]) 0 ri []
        with hrn | hrn
      · rw [hrn] at h
        have := ih (crashes ++ [a.time]) ri (n + 1) (rem ++ []) (esc + 1) n2 rem2 esc2 ev h
        simpa using this
      · rw [hrn] at h
        simp only [RunResult.gaveUp.injEq] at h
        exact ⟨h.2.2.2.symm, by rw [← h.2.1]; simp⟩

theorem untilSuccess_allOk_remedy (cmd : CommandConfig) (s : BackupStrategy) (id : Nat)
    (hs : cmd.backup_strategy = some s) (hrem : remedyList s cmd ≠ []) (as : List Attempt) :
    as.any (fun a => a.ok) = true →
    ∀ (crashes : List Int) (ri n : Nat) (rem : List CommandConfig) (esc : Nat),
    ∃ (rem2 : List CommandConfig) (esc2 : Nat),
    runUntilSuccessLoop cmd id (fun _ => true) as crashes ri n rem esc
      = RunResult.ok (n + failLen as + 1) rem2 esc2 := by
  induction as with
  | nil =>
    intro hsucc
    simp at hsucc
  | cons a rest ih =>
    intro hsucc crashes ri n rem esc
    rw [runUntilSuccessLoop_cons]
    by_cases ha : a.ok
    · refine ⟨rem, esc, ?_⟩
      rw [if_pos ha, failLen_cons, if_pos ha]
    · rw [if_neg ha]
      simp only [hs]
      rw [escalationCheck_allOk s cmd id a.time hrem (crashes ++ [a.time]) 0 ri []]
      dsimp only
      have hsucc2 : rest.any (fun a => a.ok) = true := by
        rw [List.any_cons, Bool.eq_false_iff.mpr ha, Bool.false_or] at hsucc
        exact hsucc
      obtain ⟨rem2, esc2, hres⟩ := ih hsucc2 (crashes ++ [a.time])
        (ri + trigCount s a.time (crashes ++ [a.time]) 0 * (remedyList s cmd).length)
        (n + 1)
        (rem ++ ([] ++ repRem (trigCount s a.time (crashes ++ [a.time]) 0) (remedyList s cmd)))
        (esc + 1)
      refine ⟨rem2, esc2, ?_⟩
      rw [hres, failLen_cons, if_neg ha, RunResult.ok.injEq]
      exact ⟨by omega, rfl, rfl⟩

theorem keepAlive_not_ok (cmd : CommandConfig) (id : Nat) (remOk : Nat → Bool)
    (as : List Attempt) :
    ∀ (crashes : List Int) (ri n : Nat) (rem : List CommandConfig) (esc : Nat),
    (runKeepAliveLoop cmd id remOk as crashes ri n rem esc).isSuccessTermination = false := by
  induction as with
  | nil =>
    intro crashes ri n rem esc
    rfl
  | cons a rest ih =>
    intro crashes ri n rem esc
    rw [runKeepAliveLoop_cons]
    by_cases ha : a.ok
    · rw [if_pos ha]
      exact ih crashes ri (n + 1) rem esc
    · rw [if_neg ha]
      cases hbs : cmd.backup_strategy with
      | none =>
        dsimp only
        exact ih (crashes ++ [a.time]) ri (n + 1) rem esc
      | some strategy =>
        dsimp only
        cases hesc : escalationCheck strategy cmd id a.time remOk (crashes ++ [a.time]) 0 ri [] with
        | resume run ri2 =>
          dsimp only
          exact ih (crashes ++ [a.time]) ri2 (n + 1) (rem ++ run) (esc + 1)
        | gaveUp run ev ri2 => rfl
        | failedRemedy run ri2 => rfl

theorem keepAlive_noStrategy (cmd : CommandConfig) (id : Nat) (remOk : Nat → Bool)
    (hs : cmd.backup_strategy = none) (as : List Attempt) :
    ∀ (crashes : List Int) (ri n : Nat) (rem : List CommandConfig) (esc : Nat),
    runKeepAliveLoop cmd id remOk as crashes ri n rem esc
      = RunResult.pending (n + as.length) rem esc
          (crashes ++ (as.filter fun a => !a.ok).map Attempt.time) := by
  induction as with
  | nil =>
    intro crashes ri n rem esc
    simp [runKeepAliveLoop]
  | cons a rest ih =>
    intro crashes ri n rem esc
    rw [runKeepAliveLoop_cons]
    by_cases ha : a.ok
    · rw [if_pos ha, ih crashes ri (n + 1) rem esc, RunResult.pending.injEq]
      refine ⟨by simp; omega, rfl, rfl, by simp [ha]⟩
    · rw [if_neg ha]
      simp only [hs]
      rw [ih (crashes ++ [a.time]) ri (n + 1) rem esc, RunResult.pending.injEq]
      refine ⟨by simp; omega, rfl, rfl, ?_⟩
      simp [Bool.eq_false_iff.mpr ha]

theorem keepAlive_escCount (cmd : CommandConfig) (id : Nat) (remOk : Nat → Bool)
    (s : BackupStrategy) (hs : cmd.backup_strategy = some s) (as : List Attempt) :
    ∀ (crashes : List Int) (ri n : Nat) (rem : List CommandConfig) (esc n2 : Nat)
      (rem2 : List CommandConfig) (esc2 : Nat) (cs2 : List Int),
    runKeepAliveLoop cmd id remOk as crashes ri n rem esc
        = RunResult.pending n2 rem2 esc2 cs2 →
    esc2 = esc + (as.filter fun a => !a.ok).length ∧ n2 = n + as.length := by
  induction as with
  | nil =>
    intro crashes ri n rem esc n2 rem2 esc2 cs2 h
    simp only [runKeepAliveLoop, RunResult.pending.injEq] at h
    refine ⟨by simp [← h.2.2.1], by simp [← h.1]⟩
  | cons a rest ih =>
    intro crashes ri n rem esc n2 rem2 esc2 cs2 h
    rw [runKeepAliveLoop_cons] at h
    by_cases ha : a.ok
    · rw [if_pos ha] at h
      have := ih crashes ri (n + 1) rem esc n2 rem2 esc2 cs2 h
      simp [ha] at this ⊢
      omega
    · rw [if_neg ha] at h
      simp only [hs] at h
      cases hesc : escalationCheck s cmd id a.time remOk (crashes ++ [a.time]) 0 ri [] with
      | resume run ri2 =>
        rw [hesc] at h
        dsimp only at h
        have := ih (crashes ++ [a.time]) ri2 (n + 1) (rem ++ run) (esc + 1) n2 rem2 esc2 cs2 h
        simp [Bool.eq_false_iff.mpr ha] at this ⊢
        omega
      | gaveUp run ev ri2 =>
        rw [hesc] at h
        simp at h
      | failedRemedy run ri2 =>
        rw [hesc] at h
        simp at h

/-- A plain RunUntilSuccess descriptor with no backup strategy. -/
def cmdN : CommandConfig :=
  { command := "/bin/update", args := [], stdout_history := 1000,
    mode := CommandMode.RunUntilSuccess, name := "update", backup_strategy := none }

/-- C6: RunUntilSuccess supervision. The attempt count never exceeds one
more than the failing run before the first success (so nothing runs after
the first success); and without a backup strategy the loop returns
`Ok(())` exactly at the first success, after one attempt per preceding
failure, or keeps retrying forever when no attempt succeeds. -/
theorem run_until_success_stops_at_first_success
    (command : CommandConfig) (id : Nat) (remOk : Nat → Bool) (as : List Attempt) :
    (run_until_success command id remOk as).attempts ≤ failLen as + 1
    ∧ (command.backup_strategy = none →
        run_until_success command id remOk as
          = if as.any (fun a => a.ok) then RunResult.ok (failLen as + 1) [] 0
            else RunResult.pending as.length [] 0 (as.map Attempt.time)) := by
  constructor
  · simpa using untilSuccess_attempts_le command id remOk as [] 0 0 [] 0
  · intro hs
    simpa using untilSuccess_noStrategy command id remOk hs as [] 0 0 [] 0

/-- Witness for `run_until_success_stops_at_first_success`: one failure,
then a success, then another (never-reached) attempt: the loop stops after
exactly 2 attempts. -/
theorem run_until_success_stops_witness :
    run_until_success cmdN 0 (fun _ => true) [⟨false, 0⟩, ⟨true, 1⟩, ⟨false, 2⟩]
      = RunResult.ok 2 [] 0
    ∧ (run_until_success cmdN 0 (fun _ => true) [⟨false, 0⟩, ⟨true, 1⟩, ⟨false, 2⟩]).attempts
      ≤ 2 := by
  have h := run_until_success_stops_at_first_success cmdN 0 (fun _ => true)
    [⟨false, 0⟩, ⟨true, 1⟩, ⟨false, 2⟩]
  have he : run_until_success cmdN 0 (fun _ => true) [⟨false, 0⟩, ⟨true, 1⟩, ⟨false, 2⟩]
      = RunResult.ok 2 [] 0 := by
    rw [h.2 rfl]
    decide
  exact ⟨he, by rw [he]; decide⟩

/-- A KeepAlive descriptor with no backup strategy. -/
def cmdKN : CommandConfig :=
  { command := "/bin/serve", args := [], stdout_history := 1000,
    mode := CommandMode.KeepAlive, name := "serve", backup_strategy := none }

/-- A KeepAlive strategy that never reaches its crash threshold in the
witness scenario. -/
def sK : BackupStrategy :=
  { times := 5, period := 60, script := some "remedy", safe_mode := none }

/-- A KeepAlive descriptor with backup strategy `sK`. -/
def cmdK : CommandConfig :=
  { command := "/bin/serve", args := [], stdout_history := 1000,
    mode := CommandMode.KeepAlive, name := "serve", backup_strategy := some sK }

/-- C7: KeepAlive supervision. The loop never terminates because of a
successful attempt; without a backup strategy every attempt in the oracle
is executed regardless of exit status (the loop is still pending
afterwards); and with a backup strategy, whenever the loop is still
running after the oracle, it has run every attempt and invoked the
escalation check exactly once per failing attempt. -/
theorem keep_alive_never_stops_on_success
    (command : CommandConfig) (id : Nat) (remOk : Nat → Bool) (as : List Attempt) :
    (run_keep_alive command id remOk as).isSuccessTermination = false
    ∧ (command.backup_strategy = none →
        run_keep_alive command id remOk as
          = RunResult.pending as.length [] 0 ((as.filter fun a => !a.ok).map Attempt.time))
    ∧ (∀ s : BackupStrategy, command.backup_strategy = some s →
        ∀ (n2 : Nat) (rem2 : List CommandConfig) (esc2 : Nat) (cs2 : List Int),
          run_keep_alive command id remOk as = RunResult.pending n2 rem2 esc2 cs2 →
          esc2 = (as.filter fun a => !a.ok).length ∧ n2 = as.length) := by
  refine ⟨keepAlive_not_ok command id remOk as [] 0 0 [] 0, fun hs => ?_, ?_⟩
  · simpa using keepAlive_noStrategy command id remOk hs as [] 0 0 [] 0
  · intro s hs n2 rem2 esc2 cs2 h
    simpa using keepAlive_escCount command id remOk s hs as [] 0 0 [] 0 n2 rem2 esc2 cs2 h

/-- Witness for `keep_alive_never_stops_on_success`: without a strategy, a
success followed by a failure leaves the loop still running with both
attempts executed; with strategy `sK`, one failure yields exactly one
escalation check, and the result is not a success-termination. -/
theorem keep_alive_never_stops_witness :
    run_keep_alive cmdKN 0 (fun _ => true) [⟨true, 0⟩, ⟨false, 5⟩]
      = RunResult.pending 2 [] 0 [5]
    ∧ (run_keep_alive cmdK 0 (fun _ => true) [⟨false, 0⟩]).isSuccessTermination = false
    ∧ ((1 : Nat) = (([⟨false, 0⟩] : List Attempt).filter fun a => !a.ok).length
        ∧ (1 : Nat) = ([⟨false, 0⟩] : List Attempt).length) := by
  obtain ⟨-, h2, -⟩ := keep_alive_never_stops_on_success cmdKN 0 (fun _ => true)
    [⟨true, 0⟩, ⟨false, 5⟩]
  obtain ⟨h1, -, h3⟩ := keep_alive_never_stops_on_success cmdK 0 (fun _ => true) [⟨false, 0⟩]
  refine ⟨?_, h1, ?_⟩
  · rw [h2 rfl]
    decide
  · exact h3 sK rfl 1 [] 1 [0] (by decide)

/-- A RunUntilSuccess descriptor whose strategy has no remedy at all:
threshold 0, so the very first failure crosses it. -/
def cmdG : CommandConfig :=
  { command := "/bin/false", args := [], stdout_history := 1000,
    mode := CommandMode.RunUntilSuccess, name := "false",
    backup_strategy := some { times := 0, period := 60, script := none, safe_mode := none } }

/-- C3 counterexample: on give-up the engine sends the exact message text,
but as a `NewStderrMessage`, which the display loop folds with severity
`Error` — not the `System` severity the claim states. -/
theorem give_up_message_severity_is_error :
    run_until_success cmdG 0 (fun _ => true) [⟨false, 0⟩]
      = RunResult.gaveUp 1 [] 1 (TuiEvent.NewStderrMessage 0 giveUpMsg)
    ∧ eventSeverity (TuiEvent.NewStderrMessage 0 giveUpMsg) = some Severity.error
    ∧ some Severity.error ≠ some Severity.system
    ∧ start_display_loop_step (TuiState.build ["false"]) (TuiEvent.NewStderrMessage 0 giveUpMsg)
      = some ⟨[⟨"false", [(Severity.error, giveUpMsg)]⟩], 0⟩ := by
  exact ⟨by decide, rfl, by decide, by decide⟩

/-- C3 (amended): when a command whose strategy has neither script nor
safe-mode args gives up, the event carries exactly the text
"Crash limit reached with no handling strategy, giving up!" as a stderr
(Error-severity) message, no remedy was run, and supervision stops
permanently: extending the attempt oracle changes nothing, so no further
Process Execution attempt ever occurs. -/
theorem give_up_stops_supervision_with_stderr_message
    (command : CommandConfig) (s : BackupStrategy) (id : Nat) (remOk : Nat → Bool)
    (as extra : List Attempt) (n2 : Nat) (rem2 : List CommandConfig) (esc2 : Nat)
    (ev : TuiEvent)
    (hs : command.backup_strategy = some s)
    (h1 : s.script = none) (h2 : s.safe_mode = none)
    (hres : run_until_success command id remOk as = RunResult.gaveUp n2 rem2 esc2 ev) :
    ev = TuiEvent.NewStderrMessage id giveUpMsg
    ∧ rem2 = []
    ∧ eventSeverity ev = some Severity.error
    ∧ run_until_success command id remOk (as ++ extra) = RunResult.gaveUp n2 rem2 esc2 ev := by
  obtain ⟨hev, hrem⟩ := untilSuccess_gaveUp_ev command id remOk s hs h1 h2 as
    [] 0 0 [] 0 n2 rem2 esc2 ev hres
  refine ⟨hev, hrem, by rw [hev]; rfl, ?_⟩
  have hdone : (run_until_success command id remOk as).isDone = true := by
    rw [hres]
    rfl
  have := untilSuccess_append command id remOk extra as [] 0 0 [] 0 hdone
  rw [show run_until_success command id remOk (as ++ extra)
      = runUntilSuccessLoop command id remOk (as ++ extra) [] 0 0 [] 0 from rfl, this]
  exact hres

/-- Witness for `give_up_stops_supervision_with_stderr_message`: `cmdG`
gives up on its first failure, and appending one more failing attempt to
the oracle leaves the result untouched — the second attempt never runs. -/
theorem give_up_stops_supervision_witness :
    run_until_success cmdG 0 (fun _ => true) ([⟨false, 0⟩] ++ [⟨false, 1⟩])
      = RunResult.gaveUp 1 [] 1 (TuiEvent.NewStderrMessage 0 giveUpMsg) := by
  exact (give_up_stops_supervision_with_stderr_message cmdG
    { times := 0, period := 60, script := none, safe_mode := none } 0 (fun _ => true)
    [⟨false, 0⟩] [⟨false, 1⟩] 1 [] 1 (TuiEvent.NewStderrMessage 0 giveUpMsg)
    rfl rfl rfl (by decide)).2.2.2

/-- A RunUntilSuccess strategy with threshold 0 and a backup script. -/
def sR : BackupStrategy :=
  { times := 0, period := 60, script := some "remedy", safe_mode := none }

/-- A RunUntilSuccess descriptor with strategy `sR`. -/
def cmdR : CommandConfig :=
  { command := "/bin/app", args := [], stdout_history := 1000,
    mode := CommandMode.RunUntilSuccess, name := "app", backup_strategy := some sR }

/-- The one-shot descriptor the engine builds for `sR`'s script under
`cmdR`. -/
def remR : CommandConfig :=
  { command := "remedy", args := [], stdout_history := 1000,
    mode := CommandMode.RunOnceAndWait, name := "remedy", backup_strategy := none }

/-- C4 counterexample: with the same attempt oracle (one failure, then a
success), a failing remedy makes the supervision task return the remedy's
error after a single attempt — the available success is never reached —
while a succeeding remedy lets the loop resume and reach it. The `?` on
`run_once` propagates the remedy's failure and terminates the task,
refuting "the restart loop always resumes regardless of the remedy's own
exit status". -/
theorem failed_remedy_terminates_task :
    run_until_success cmdR 0 (fun _ => false) [⟨false, 0⟩, ⟨true, 1⟩]
      = RunResult.err 1 [remR] 1
    ∧ run_until_success cmdR 0 (fun _ => true) [⟨false, 0⟩, ⟨true, 1⟩]
      = RunResult.ok 2 [remR] 1 := by
  exact ⟨by decide, by decide⟩

/-- C4 (amended): escalation remedies run synchronously inside the check;
when every remedy run completes successfully, the normal restart loop
always resumes with the next attempt of the original command and
terminates at the first success as usual; a failing remedy instead
propagates an error that ends the supervision task. -/
theorem remedy_success_resumes_loop
    (command : CommandConfig) (s : BackupStrategy) (id : Nat) (as : List Attempt)
    (hs : command.backup_strategy = some s) (hrem : remedyList s command ≠ [])
    (hsucc : as.any (fun a => a.ok) = true) :
    ∃ (rem2 : List CommandConfig) (esc2 : Nat),
      run_until_success command id (fun _ => true) as
        = RunResult.ok (failLen as + 1) rem2 esc2 := by
  simpa using untilSuccess_allOk_remedy command s id hs hrem as hsucc [] 0 0 [] 0

/-- Witness for `remedy_success_resumes_loop`: `cmdR` with an
always-succeeding remedy reaches the success on attempt 2. -/
theorem remedy_success_resumes_loop_witness :
    ∃ (rem2 : List CommandConfig) (esc2 : Nat),
      run_until_success cmdR 0 (fun _ => true) [⟨false, 0⟩, ⟨true, 1⟩]
        = RunResult.ok 2 rem2 esc2 := by
  have h := remedy_success_resumes_loop cmdR sR 0 [⟨false, 0⟩, ⟨true, 1⟩]
    rfl (by decide) (by decide)
  have harith : failLen [(⟨false, 0⟩ : Attempt), ⟨true, 1⟩] + 1 = 2 := by decide
  rw [harith] at h
  exact h

end Runner
